import Mathlib

/-
Shallow embedding of the MCP Home Assistant server (main.go).

Conventions of the embedding:
- Go JSON values (map[string]interface{}) become the inductive JVal; a Go
  type assertion v.(string) succeeds exactly on the JVal.str constructor.
- Go maps (map[string]V) become prepend-only association lists (SMap) whose
  lookup scans from the front, so a later insert shadows an earlier one,
  matching Go map overwrite; a Go map is empty iff the list is empty.
- Network I/O is an oracle input: each fetching function takes the observable
  outcome of its socket attempt (Except Unit ...) and of each REST attempt
  (RestAttempt) and returns what the Go function returns. Except.error ()
  stands for any non-nil Go error.
- Go string length is byte length; we use Lean character length, which agrees
  on the ASCII data all vocabularies and examples use.
-/

namespace HAMCP

/-- Dynamic JSON value, modelling Go's interface-typed attribute values. -/
inductive JVal where
  | str (s : String)
  | num (n : Int)
  | boolean (b : Bool)
  | null
  | arr (xs : List JVal)
  | obj (fields : List (String × JVal))

/-- Lookup of a key in a JSON object field list (Go map indexing; JSON object
keys are unique so first match suffices). -/
def jlookup : List (String × JVal) → String → Option JVal
  | [], _ => none
  | (k, v) :: rest, key => if key = k then some v else jlookup rest key

/-- Go's v.(string) type assertion combined with map lookup. -/
def jlookupStr (fields : List (String × JVal)) (key : String) : Option String :=
  match jlookup fields key with
  | some (JVal.str s) => some s
  | _ => none

/-- strings.Contains: sub occurs as a contiguous substring of s. -/
def strContainsSub (s sub : String) : Bool :=
  containsAux s.data sub.data
where
  containsAux : List Char → List Char → Bool
    | [], sub => sub.isPrefixOf ([] : List Char)
    | c :: rest, sub => sub.isPrefixOf (c :: rest) || containsAux rest sub

/-- strings.ToLower, character by character (the data involved is ASCII, on
which Char.toLower agrees with Go's Unicode lowering). -/
def toLowerStr (s : String) : String :=
  String.mk (s.data.map Char.toLower)

/-- strings.HasPrefix / String.startsWith on the underlying characters. -/
def strStartsWith (s p : String) : Bool :=
  p.data.isPrefixOf s.data

/-- Go len of a string (byte length; agrees with character count on the
ASCII data involved). -/
def strLen (s : String) : Nat :=
  s.data.length

/-- strings.Split(s, " "): split on each single space, keeping empty
fields. -/
def splitOnSpaceAux (cur : List Char) : List Char → List String
  | [] => [String.mk cur.reverse]
  | c :: rest =>
      if c = ' ' then String.mk cur.reverse :: splitOnSpaceAux [] rest
      else splitOnSpaceAux (c :: cur) rest

def splitOnSpace (s : String) : List String :=
  splitOnSpaceAux [] s.data

/-- strings.ReplaceAll(strings.ToLower(s), " ", "_"): area-id normalization
(pattern and replacement are single characters, so ReplaceAll is a
character-wise substitution). -/
def normalizeAreaID (s : String) : String :=
  String.mk ((toLowerStr s).data.map (fun c => if c = ' ' then '_' else c))

/-- The fixed area-noun vocabulary of isCommonAreaWord (main.go). -/
def commonAreaWords : List String :=
  ["room", "bedroom", "bathroom", "kitchen", "office",
   "living", "dining", "family", "master", "guest",
   "hall", "hallway", "entrance", "foyer", "lobby",
   "garage", "basement", "attic", "closet", "storage",
   "porch", "patio", "deck", "balcony", "terrace"]

/-- isCommonAreaWord: the lowercased word equals some vocabulary entry. -/
def isCommonAreaWord (word : String) : Bool :=
  commonAreaWords.any (fun w => toLowerStr word == w)

/-- The fixed device-name vocabulary of isDeviceName (main.go). -/
def deviceNames : List String :=
  ["lolin", "nodemcu", "esp", "arduino", "sonoff",
   "shelly", "zigbee", "zwave", "wifi", "bluetooth",
   "sensor", "switch", "light", "lamp", "bulb",
   "device", "module", "controller", "hub"]

/-- isDeviceName: some vocabulary entry occurs in the lowercased name. -/
def isDeviceName (name : String) : Bool :=
  deviceNames.any (fun d => strContainsSub (toLowerStr name) d)

/-- HAArea (main.go): a physical area. -/
structure HAArea where
  areaId : String
  name : String
  picture : String
  aliases : List String
deriving DecidableEq

/-- HAState (main.go): one entity's current state. -/
structure HAState where
  entityId : String
  state : String
  attributes : List (String × JVal)
  lastChanged : String
  lastUpdated : String
  area : Option HAArea

/-- HADevice (main.go): a device registry entry. -/
structure HADevice where
  id : String
  areaId : String
  name : String
deriving DecidableEq

/-- HAEntity (main.go): an entity registry entry. -/
structure HAEntity where
  entityId : String
  deviceId : String
  areaId : String
deriving DecidableEq

/-- Entity-id prefix filter used throughout: light. or switch. entities. -/
def isLightOrSwitch (entityId : String) : Bool :=
  strStartsWith entityId "light." || strStartsWith entityId "switch."

/-- Go map modelled as a prepend-only association list: lookup from the
front, insert by prepending, so the latest insert for a key wins. -/
def SMap (α : Type) : Type := List (String × α)

def SMap.empty {α : Type} : SMap α := []

def SMap.find {α : Type} : SMap α → String → Option α
  | [], _ => none
  | (k, v) :: rest, key => if key = k then some v else SMap.find rest key

def SMap.insert {α : Type} (m : SMap α) (k : String) (v : α) : SMap α :=
  (k, v) :: m

/-- Go len(m) == 0 for a prepend-only map: the underlying list is empty. -/
def SMap.isEmptyMap {α : Type} (m : SMap α) : Bool :=
  match m with
  | [] => true
  | _ :: _ => false

/-- AreaEnrichmentCache (main.go): areas, device-to-area, entity-to-area
maps plus the last refresh timestamp (modelled in abstract time units). -/
structure AreaEnrichmentCache where
  areas : SMap HAArea
  devices : SMap String
  entities : SMap String
  lastUpdate : Nat

/-- The 5*time.Minute staleness threshold, in Go nanoseconds. -/
def stalenessThreshold : Nat := 300000000000

/-- The areas-map rebuild loop of updateAreaCache: index each fetched area
by its area id. -/
def buildAreasMapAux (acc : SMap HAArea) : List HAArea → SMap HAArea
  | [] => acc
  | a :: rest => buildAreasMapAux (acc.insert a.areaId a) rest

def buildAreasMap (areas : List HAArea) : SMap HAArea :=
  buildAreasMapAux SMap.empty areas

/-- The devices-map rebuild loop of updateAreaCache: device id to area id,
skipping devices whose area id is empty. -/
def buildDeviceMapAux (acc : SMap String) : List HADevice → SMap String
  | [] => acc
  | d :: rest =>
      buildDeviceMapAux (if d.areaId ≠ "" then acc.insert d.id d.areaId else acc) rest

def buildDeviceMap (devices : List HADevice) : SMap String :=
  buildDeviceMapAux SMap.empty devices

/-- Resolution of one entity registration in updateAreaCache: a non-empty
direct area id wins; else a non-empty device id is looked up in the device
map; else the registration resolves to nothing. -/
def resolveRegistration (dm : SMap String) (e : HAEntity) : Option String :=
  if e.areaId ≠ "" then some e.areaId
  else if e.deviceId ≠ "" then dm.find e.deviceId
  else none

/-- The entities-map rebuild loop of updateAreaCache. -/
def buildEntityMapAux (dm : SMap String) (acc : SMap String) : List HAEntity → SMap String
  | [] => acc
  | e :: rest =>
      buildEntityMapAux dm
        (match resolveRegistration dm e with
         | some areaId => acc.insert e.entityId areaId
         | none => acc) rest

def buildEntityMap (entities : List HAEntity) (dm : SMap String) : SMap String :=
  buildEntityMapAux dm SMap.empty entities

/-- Outcome of the three registry fetches feeding updateAreaCache: none
models a non-nil error from the fetching function. -/
structure FetchResults where
  areas : Option (List HAArea)
  devices : Option (List HADevice)
  entities : Option (List HAEntity)

/-- updateAreaCache (main.go): checkTime is the clock at the staleness test,
doneTime the clock when the timestamp is written at the end. The Bool records
whether the fetch sequence (network I/O) ran. Each failed fetch is replaced
by an empty list and the three maps are rebuilt wholesale. -/
def updateAreaCache (checkTime doneTime : Nat) (fr : FetchResults)
    (c : AreaEnrichmentCache) : AreaEnrichmentCache × Bool :=
  if checkTime - c.lastUpdate < stalenessThreshold then (c, false)
  else
    let areas := fr.areas.getD []
    let devices := fr.devices.getD []
    let entities := fr.entities.getD []
    let dm := buildDeviceMap devices
    ({ areas := buildAreasMap areas
     , devices := dm
     , entities := buildEntityMap entities dm
     , lastUpdate := doneTime }, true)

/-- The per-state body of the enrichment loop in enrichWithArea: attach the
Area exactly when the entity map and then the areas map both hit. -/
def enrichOne (c : AreaEnrichmentCache) (s : HAState) : HAState :=
  match c.entities.find s.entityId with
  | some areaId =>
      match c.areas.find areaId with
      | some a => { s with area := some a }
      | none => s
  | none => s

/-- enrichWithArea (main.go), after the cache refresh attempt: if both the
areas map and the entities map are empty the input is returned as-is,
otherwise each state is enriched in place. -/
def enrichWithArea (c : AreaEnrichmentCache) (states : List HAState) : List HAState :=
  if c.areas.isEmptyMap && c.entities.isEmptyMap then states
  else states.map (enrichOne c)

/-- Observable outcome of one REST attempt: a transport error from
makeHARequest, or a response with its status and, for a 200 body, whether it
read and decoded as the target type (none models a read or decode failure). -/
inductive RestAttempt (α : Type) where
  | transportError
  | resp (status : Nat) (body : Option α)

/-- The body of the REST candidate loop in getAreas: an attempt yields a
result only on status 200 with a successfully decoded body; any other
outcome makes the loop continue. -/
def tryRestAttempt {α : Type} : RestAttempt α → Option α
  | .transportError => none
  | .resp status body => if status = 200 then body else none

/-- The explicit area-attribute branch of extractAreasFromStates: a present
string "area" attribute that is non-empty yields (normalized id, raw name). -/
def areaAttrOf (s : HAState) : Option (String × String) :=
  match jlookup s.attributes "area" with
  | some (JVal.str a) => if a ≠ "" then some (normalizeAreaID a, a) else none
  | _ => none

/-- The possibleArea computation of the friendly-name branch: the first two
tokens joined when at least three tokens exist and the second is a common
area word, else the first token alone. -/
def possibleAreaOf (parts : List String) : String :=
  if 3 ≤ parts.length ∧ isCommonAreaWord (parts.getD 1 "") = true then
    parts.getD 0 "" ++ " " ++ parts.getD 1 ""
  else parts.getD 0 ""

/-- The guard structure around the candidate: at least two tokens, candidate
longer than 3 characters and not a device name. -/
def friendlyCandidate (parts : List String) : Option (String × String) :=
  if 2 ≤ parts.length then
    if 3 < strLen (possibleAreaOf parts) ∧ isDeviceName (possibleAreaOf parts) = false then
      some (normalizeAreaID (possibleAreaOf parts), possibleAreaOf parts)
    else none
  else none

/-- The friendly-name branch shared by extractAreasFromStates and
extractEntityAreaFromStates: split the display name on single spaces and
apply the candidate rule and its guards. -/
def friendlyAreaOf (s : HAState) : Option (String × String) :=
  match jlookupStr s.attributes "friendly_name" with
  | some nameStr => friendlyCandidate (splitOnSpace nameStr)
  | none => none

/-- The if-not-exists insertion of extractAreasFromStates: a candidate is
registered only when its area id is not already present (first wins). -/
def registerArea (m : SMap HAArea) : Option (String × String) → SMap HAArea
  | none => m
  | some (areaId, nm) =>
      match m.find areaId with
      | some _ => m
      | none => m.insert areaId { areaId := areaId, name := nm, picture := "", aliases := [] }

/-- One iteration of the extraction loop of extractAreasFromStates: non
light/switch states are skipped; then the area-attribute branch runs, and
then — independently of it — the friendly-name branch runs. -/
def extractAreasStep (m : SMap HAArea) (s : HAState) : SMap HAArea :=
  if isLightOrSwitch s.entityId then
    registerArea (registerArea m (areaAttrOf s)) (friendlyAreaOf s)
  else m

/-- The areasMap accumulated by extractAreasFromStates over all states. -/
def extractAreasMap (states : List HAState) : SMap HAArea :=
  states.foldl extractAreasStep SMap.empty

/-- The slice produced from areasMap at the end of extractAreasFromStates.
Go map iteration order is unspecified; we fix insertion order. No claim
depends on this order. -/
def extractAreasList (states : List HAState) : List HAArea :=
  (extractAreasMap states).reverse.map (fun p => p.2)

/-- extractAreasFromStates (main.go): fetch /api/states and extract areas;
a transport error, non-200 status or decode failure is an error. -/
def extractAreasFromStates (statesResp : RestAttempt (List HAState)) :
    Except Unit (List HAArea) :=
  match statesResp with
  | .transportError => .error ()
  | .resp status body =>
      if status ≠ 200 then .error ()
      else
        match body with
        | some states => .ok (extractAreasList states)
        | none => .error ()

/-- getAreas (main.go): socket first — success needs no error AND a
non-empty list; then the two REST candidates in order; then the heuristic
extraction from bulk states. -/
def getAreas (sock : Except Unit (List HAArea))
    (rest1 rest2 : RestAttempt (List HAArea))
    (statesResp : RestAttempt (List HAState)) : Except Unit (List HAArea) :=
  match sock with
  | .ok l =>
      if 0 < l.length then .ok l
      else getAreasRestPhase rest1 rest2 statesResp
  | .error _ => getAreasRestPhase rest1 rest2 statesResp
where
  getAreasRestPhase (rest1 rest2 : RestAttempt (List HAArea))
      (statesResp : RestAttempt (List HAState)) : Except Unit (List HAArea) :=
    match tryRestAttempt rest1 with
    | some l => .ok l
    | none =>
        match tryRestAttempt rest2 with
        | some l => .ok l
        | none => extractAreasFromStates statesResp

/-- getDevices (main.go): socket first — an empty decoded list is accepted
as valid; then the single REST candidate, where a transport error or decode
failure is an error but a non-200 status yields the empty device list. -/
def getDevices (sock : Except Unit (List HADevice))
    (rest : RestAttempt (List HADevice)) : Except Unit (List HADevice) :=
  match sock with
  | .ok l => .ok l
  | .error _ =>
      match rest with
      | .transportError => .error ()
      | .resp status body =>
          if status ≠ 200 then .ok []
          else
            match body with
            | some l => .ok l
            | none => .error ()

/-- One iteration of the extraction loop of extractEntityAreaFromStates:
every light/switch state yields a registration whose area id comes from the
friendly-name branch when accepted, else stays empty. -/
def extractEntityOne (s : HAState) : HAEntity :=
  { entityId := s.entityId
  , deviceId := ""
  , areaId :=
      match friendlyAreaOf s with
      | some (areaId, _) => areaId
      | none => "" }

/-- The registration list built by extractEntityAreaFromStates: one entry
per light/switch state, in input order. -/
def extractEntityAreaCore (states : List HAState) : List HAEntity :=
  (states.filter (fun s => isLightOrSwitch s.entityId)).map extractEntityOne

/-- extractEntityAreaFromStates (main.go): fetch /api/states and build
heuristic registrations; transport error, non-200 or decode failure is an
error. -/
def extractEntityAreaFromStates (statesResp : RestAttempt (List HAState)) :
    Except Unit (List HAEntity) :=
  match statesResp with
  | .transportError => .error ()
  | .resp status body =>
      if status ≠ 200 then .error ()
      else
        match body with
        | some states => .ok (extractEntityAreaCore states)
        | none => .error ()

/-- getEntityRegistry (main.go): socket first — an empty decoded list is
accepted as valid; then the single REST candidate, where a transport error
is an error, a non-200 status falls through to the heuristic extraction,
and a decode failure of a 200 response is an error. -/
def getEntityRegistry (sock : Except Unit (List HAEntity))
    (rest : RestAttempt (List HAEntity))
    (statesResp : RestAttempt (List HAState)) : Except Unit (List HAEntity) :=
  match sock with
  | .ok l => .ok l
  | .error _ =>
      match rest with
      | .transportError => .error ()
      | .resp status body =>
          if status ≠ 200 then extractEntityAreaFromStates statesResp
          else
            match body with
            | some l => .ok l
            | none => .error ()

/-
Entity filter. regexp.MatchString is abstracted by an oracle
regexMatch : pattern → input → Option Bool, where none models a compile
error (a malformed pattern) and some b the match outcome.
-/

/-- isEntityBlacklisted (main.go): each pattern is tried first as an exact
string match, then as a regular expression; a malformed pattern matches
nothing. -/
def isEntityBlacklisted (regexMatch : String → String → Option Bool) :
    List String → String → Bool
  | [], _ => false
  | p :: rest, entityId =>
      if p = entityId then true
      else if (regexMatch p entityId).getD false then true
      else isEntityBlacklisted regexMatch rest entityId

/-- isEntityWhitelisted (main.go): regular-expression matching only. -/
def isEntityWhitelisted (regexMatch : String → String → Option Bool) :
    List String → String → Bool
  | [], _ => false
  | p :: rest, entityId =>
      if (regexMatch p entityId).getD false then true
      else isEntityWhitelisted regexMatch rest entityId

/-- filterEntities (main.go): drop blacklisted entities; with an empty
whitelist keep the rest; otherwise keep only whitelisted entities. -/
def filterEntities (regexMatch : String → String → Option Bool)
    (blacklist whitelist : List String) : List HAState → List HAState
  | [] => []
  | e :: rest =>
      if isEntityBlacklisted regexMatch blacklist e.entityId then
        filterEntities regexMatch blacklist whitelist rest
      else if whitelist.length = 0 then
        e :: filterEntities regexMatch blacklist whitelist rest
      else if isEntityWhitelisted regexMatch whitelist e.entityId then
        e :: filterEntities regexMatch blacklist whitelist rest
      else
        filterEntities regexMatch blacklist whitelist rest

/-
Control executor. The HTTP layer is abstracted by an oracle
httpPost : path → Option Nat, where none models a transport error and
some st a response with status st. The request payload is always the
object carrying the entity id, recorded here as the id itself.
-/

/-- Outcome of controlEntity. -/
inductive CtrlOutcome where
  | ok
  | userErr
  | transportErr
  | hubErr (status : Nat)
deriving DecidableEq

/-- The domain derivation of controlEntity: only light. and switch.
prefixes are supported. -/
def domainOf (entityId : String) : Option String :=
  if strStartsWith entityId "light." then some "light"
  else if strStartsWith entityId "switch." then some "switch"
  else none

/-- The action normalization of controlEntity. -/
def serviceOf (action : String) : Option String :=
  if action = "on" || action = "turn_on" then some "turn_on"
  else if action = "off" || action = "turn_off" then some "turn_off"
  else none

/-- controlEntity (main.go). Returns the outcome together with the list of
(path, entity-id payload) POST requests issued, in order. -/
def controlEntity (httpPost : String → Option Nat) (entityId action : String) :
    CtrlOutcome × List (String × String) :=
  match domainOf entityId with
  | none => (.userErr, [])
  | some domain =>
      match serviceOf action with
      | none => (.userErr, [])
      | some service =>
          let path := "/api/services/" ++ domain ++ "/" ++ service
          match httpPost path with
          | none => (.transportErr, [(path, entityId)])
          | some status =>
              if status = 200 then (.ok, [(path, entityId)])
              else (.hubErr status, [(path, entityId)])

/-
Batch control handler core. Each input item is an arbitrary JSON value;
the per-entity control call is abstracted by an oracle
ctrl : entityId → action → Except String Unit (error carries err.Error()).
-/

/-- One entry of the results list of controlMultipleEntitiesHandler
(flattening the Go map; absent keys are defaulted to ""). -/
structure BatchEntry where
  index : Nat
  entityId : String
  action : String
  success : Bool
  errMsg : String
deriving DecidableEq

/-- The tail of the batch loop body once entity_id and action are known:
the per-entity control call's failure yields a failed entry plus an
aggregate error message, its success a success entry. -/
def processCtrlResult (i : Nat) (entityId action : String) :
    Except String Unit → BatchEntry × Option String
  | .error e => (⟨i, entityId, action, false, e⟩, some ("Entity " ++ entityId ++ ": " ++ e))
  | .ok _ => (⟨i, entityId, action, true, ""⟩, none)

/-- The batch loop body once the item is an object with a string entity_id:
a missing or non-string action yields a failed entry plus an error,
otherwise the control call is made. -/
def processWithEntity (ctrl : String → String → Except String Unit)
    (i : Nat) (fields : List (String × JVal)) (entityId : String) :
    BatchEntry × Option String :=
  match jlookupStr fields "action" with
  | none =>
      let msg := "Entity " ++ entityId ++ ": action is required and must be a string"
      (⟨i, entityId, "", false, msg⟩, some msg)
  | some action => processCtrlResult i entityId action (ctrl entityId action)

/-- The batch loop body once the item is an object: a missing or non-string
entity_id yields a failed entry plus an error. -/
def processObjItem (ctrl : String → String → Except String Unit)
    (i : Nat) (fields : List (String × JVal)) : BatchEntry × Option String :=
  match jlookupStr fields "entity_id" with
  | none =>
      let msg := "Entity " ++ toString i ++ ": entity_id is required and must be a string"
      (⟨i, "", "", false, msg⟩, some msg)
  | some entityId => processWithEntity ctrl i fields entityId

/-- The per-item body of the batch loop: a malformed item, a missing
entity_id, a missing action, or a control failure yields a failed entry plus
an aggregate error message; a successful control yields a success entry. -/
def processBatchItem (ctrl : String → String → Except String Unit)
    (i : Nat) (item : JVal) : BatchEntry × Option String :=
  match item with
  | JVal.obj fields => processObjItem ctrl i fields
  | _ =>
      let msg := "Entity " ++ toString i ++ ": must be an object with entity_id and action"
      (⟨i, "", "", false, msg⟩, some msg)

/-- The sequential batch loop of controlMultipleEntitiesHandler, returning
the results list and the aggregate error list. -/
def processBatch (ctrl : String → String → Except String Unit) :
    List JVal → Nat → List BatchEntry × List String
  | [], _ => ([], [])
  | item :: rest, i =>
      let r := processBatchItem ctrl i item
      let tail := processBatch ctrl rest (i + 1)
      (r.1 :: tail.1, r.2.toList ++ tail.2)

/-- controlMultipleEntitiesHandler's whole loop, starting at index 0. -/
def controlMultipleEntities (ctrl : String → String → Except String Unit)
    (items : List JVal) : List BatchEntry × List String :=
  processBatch ctrl items 0

/-
Characterization functions, stated from the specification's words, against
which the cache-building loops are compared.
-/

/-- The area the device map should associate to a device id, per the spec:
the area id of the device with that id and a non-empty area id (the last
such device when the id is repeated, matching Go map overwrite). -/
def lastDeviceArea : List HADevice → String → Option String
  | [], _ => none
  | d :: rest, key =>
      match lastDeviceArea rest key with
      | some a => some a
      | none => if key = d.id ∧ d.areaId ≠ "" then some d.areaId else none

/-- The area the entity map should associate to an entity id, per the spec:
the resolution (direct area id first, else the device map) of the last
registration with that entity id that resolves at all. -/
def lastEntityArea (dm : SMap String) : List HAEntity → String → Option String
  | [], _ => none
  | e :: rest, key =>
      match lastEntityArea dm rest key with
      | some a => some a
      | none => if key = e.entityId then resolveRegistration dm e else none

/-- The candidate rule of claim C6 read literally: the first two tokens
joined when at least three tokens exist and the second is an area noun, else
the first token alone (also for a single-token name). -/
def candidateClaim6 : List String → Option String
  | [] => none
  | [t] => some t
  | t1 :: t2 :: rest =>
      if 0 < rest.length ∧ isCommonAreaWord t2 = true then some (t1 ++ " " ++ t2)
      else some t1

/-- One extraction step as claim C6 states it: the explicit area attribute
is used, and only OTHERWISE is the display name consulted. -/
def extractAreasStepClaim6 (m : SMap HAArea) (s : HAState) : SMap HAArea :=
  if isLightOrSwitch s.entityId then
    match jlookupStr s.attributes "area" with
    | some a => registerArea m (some (normalizeAreaID a, a))
    | none =>
        match jlookupStr s.attributes "friendly_name" with
        | some n =>
            match candidateClaim6 (splitOnSpace n) with
            | some cand =>
                if 3 < strLen cand ∧ isDeviceName cand = false then
                  registerArea m (some (normalizeAreaID cand, cand))
                else m
            | none => m
        | none => m
  else m

/-- The whole extraction as claim C6 states it. -/
def extractAreasMapClaim6 (states : List HAState) : SMap HAArea :=
  states.foldl extractAreasStepClaim6 SMap.empty

/-- The display-name candidate rule as amended: it exists only when the name
splits into at least two tokens; with at least three tokens whose second is
an area noun the candidate is the first two tokens joined, else the first
token alone. -/
def candidateAmended : List String → Option String
  | t1 :: t2 :: rest =>
      if 0 < rest.length ∧ isCommonAreaWord t2 = true then some (t1 ++ " " ++ t2)
      else some t1
  | _ => none

/-- The explicit-area-attribute step as amended: a present, non-empty string
"area" attribute registers the normalized area (first occurrence wins). -/
def areaAttrRegister (m : SMap HAArea) (s : HAState) : SMap HAArea :=
  match jlookupStr s.attributes "area" with
  | some a => if a ≠ "" then registerArea m (some (normalizeAreaID a, a)) else m
  | none => m

/-- One extraction step as amended: the non-empty explicit area attribute is
registered AND — additionally, not alternatively — the accepted display-name
candidate is registered. -/
def extractAreasStepAmended (m : SMap HAArea) (s : HAState) : SMap HAArea :=
  if isLightOrSwitch s.entityId then
    match jlookupStr s.attributes "friendly_name" with
    | some n =>
        match candidateAmended (splitOnSpace n) with
        | some cand =>
            if 3 < strLen cand ∧ isDeviceName cand = false then
              registerArea (areaAttrRegister m s) (some (normalizeAreaID cand, cand))
            else areaAttrRegister m s
        | none => areaAttrRegister m s
    | none => areaAttrRegister m s
  else m

/-- The whole extraction as amended. -/
def extractAreasMapAmended (states : List HAState) : SMap HAArea :=
  states.foldl extractAreasStepAmended SMap.empty

/-
Concrete fixtures used by witnesses and counterexamples.
-/

/-- A light state named per the spec example that yields area living_room. -/
def livingRoomLampState : HAState :=
  { entityId := "light.lr", state := "on"
  , attributes := [("friendly_name", JVal.str "Living Room Lamp 1")]
  , lastChanged := "", lastUpdated := "", area := none }

/-- A switch state named per the spec example that yields no area. -/
def sonoffSwitchState : HAState :=
  { entityId := "switch.s1", state := "off"
  , attributes := [("friendly_name", JVal.str "Sonoff Switch 1")]
  , lastChanged := "", lastUpdated := "", area := none }

/-- A state carrying both an explicit area attribute and a display name that
itself extracts an area. -/
def dualAttrState : HAState :=
  { entityId := "light.d", state := "on"
  , attributes := [("area", JVal.str "Garage"), ("friendly_name", JVal.str "Kitchen Lamp")]
  , lastChanged := "", lastUpdated := "", area := none }

/-- A state whose display name is a single token longer than 3 characters. -/
def singleTokenState : HAState :=
  { entityId := "light.k", state := "on"
  , attributes := [("friendly_name", JVal.str "Kitchenette")]
  , lastChanged := "", lastUpdated := "", area := none }

/-- The kitchen area fixture. -/
def kitchenArea : HAArea :=
  { areaId := "kitchen", name := "Kitchen", picture := "", aliases := [] }

/-- A device registry fixture: dev1 sits in the kitchen. -/
def devListFx : List HADevice :=
  [{ id := "dev1", areaId := "kitchen", name := "D1" }]

/-- An entity registry fixture: light.a has no direct area but sits on dev1. -/
def regListFx : List HAEntity :=
  [{ entityId := "light.a", deviceId := "dev1", areaId := "" }]

/-- A cache fixture mapping light.a to the kitchen area. -/
def cacheFx : AreaEnrichmentCache :=
  { areas := [("kitchen", kitchenArea)]
  , devices := [("dev1", "kitchen")]
  , entities := [("light.a", "kitchen")]
  , lastUpdate := 0 }

/-- A state fixture for light.a, not yet enriched. -/
def stateFx : HAState :=
  { entityId := "light.a", state := "on", attributes := []
  , lastChanged := "", lastUpdated := "", area := none }

/-- A fetch-results fixture where the areas fetch failed but the device and
entity fetches succeeded. -/
def frPartialFx : FetchResults :=
  { areas := none, devices := some devListFx, entities := some regListFx }

/-- The cache as created at process start: all maps empty, zero timestamp. -/
def emptyCacheFx : AreaEnrichmentCache :=
  { areas := SMap.empty, devices := SMap.empty, entities := SMap.empty, lastUpdate := 0 }

/-
Helper lemmas.
-/

theorem SMap.find_insert {α : Type} (m : SMap α) (k : String) (v : α) (key : String) :
    (m.insert k v).find key = if key = k then some v else m.find key := rfl

theorem SMap.isEmptyMap_iff {α : Type} (m : SMap α) :
    m.isEmptyMap = true ↔ m = SMap.empty := by
  cases m with
  | nil => simp [SMap.isEmptyMap, SMap.empty]
  | cons p rest =>
      simp only [SMap.isEmptyMap, SMap.empty]
      constructor
      · intro h; cases h
      · intro h; cases h

theorem buildDeviceMapAux_find (devs : List HADevice) (acc : SMap String) (key : String) :
    (buildDeviceMapAux acc devs).find key =
      match lastDeviceArea devs key with
      | some a => some a
      | none => acc.find key := by
  induction devs generalizing acc with
  | nil => rfl
  | cons d rest ih =>
      simp only [buildDeviceMapAux, lastDeviceArea]
      rw [ih]
      cases h : lastDeviceArea rest key with
      | some a => rfl
      | none =>
          by_cases hA : d.areaId ≠ ""
          · rw [if_pos hA, SMap.find_insert]
            by_cases hk : key = d.id
            · rw [if_pos hk, if_pos ⟨hk, hA⟩]
            · rw [if_neg hk, if_neg (fun hc => hk hc.1)]
          · rw [if_neg hA, if_neg (fun hc => hA hc.2)]

theorem buildDeviceMap_find (devs : List HADevice) (key : String) :
    (buildDeviceMap devs).find key = lastDeviceArea devs key := by
  rw [buildDeviceMap, buildDeviceMapAux_find]
  cases lastDeviceArea devs key <;> rfl

theorem lastDeviceArea_ne_none_iff (devs : List HADevice) (key : String) :
    lastDeviceArea devs key ≠ none ↔ ∃ d ∈ devs, d.id = key ∧ d.areaId ≠ "" := by
  induction devs with
  | nil => simp [lastDeviceArea]
  | cons d rest ih =>
      simp only [lastDeviceArea]
      cases h : lastDeviceArea rest key with
      | some a =>
          rw [h] at ih
          simp only [List.mem_cons]
          constructor
          · intro _
            obtain ⟨d', hm, h1, h2⟩ := ih.mp (by simp)
            exact ⟨d', Or.inr hm, h1, h2⟩
          · intro _; simp
      | none =>
          rw [h] at ih
          simp only [List.mem_cons]
          by_cases hc : key = d.id ∧ d.areaId ≠ ""
          · rw [if_pos hc]
            constructor
            · intro _; exact ⟨d, Or.inl rfl, hc.1.symm, hc.2⟩
            · intro _; simp
          · rw [if_neg hc]
            constructor
            · intro hn; exact absurd rfl hn
            · rintro ⟨d', hm, h1, h2⟩
              rcases hm with hm | hm
              · subst hm; exact absurd ⟨h1.symm, h2⟩ hc
              · exact absurd (ih.mpr ⟨d', hm, h1, h2⟩) (by simp)

theorem buildEntityMapAux_find (dm : SMap String) (regs : List HAEntity)
    (acc : SMap String) (key : String) :
    (buildEntityMapAux dm acc regs).find key =
      match lastEntityArea dm regs key with
      | some a => some a
      | none => acc.find key := by
  induction regs generalizing acc with
  | nil => rfl
  | cons e rest ih =>
      simp only [buildEntityMapAux, lastEntityArea]
      rw [ih]
      cases h : lastEntityArea dm rest key with
      | some a => rfl
      | none =>
          cases hr : resolveRegistration dm e with
          | some a => by_cases hk : key = e.entityId <;> simp [SMap.insert, SMap.find, hk]
          | none => by_cases hk : key = e.entityId <;> simp [hk]

theorem buildEntityMap_find (regs : List HAEntity) (dm : SMap String) (key : String) :
    (buildEntityMap regs dm).find key = lastEntityArea dm regs key := by
  rw [buildEntityMap, buildEntityMapAux_find]
  cases lastEntityArea dm regs key <;> rfl

theorem lastEntityArea_ne_none_iff (dm : SMap String) (regs : List HAEntity) (key : String) :
    lastEntityArea dm regs key ≠ none ↔
      ∃ r ∈ regs, r.entityId = key ∧ resolveRegistration dm r ≠ none := by
  induction regs with
  | nil => simp [lastEntityArea]
  | cons e rest ih =>
      simp only [lastEntityArea]
      cases h : lastEntityArea dm rest key with
      | some a =>
          rw [h] at ih
          simp only [List.mem_cons]
          constructor
          · intro _
            obtain ⟨r, hm, h1, h2⟩ := ih.mp (by simp)
            exact ⟨r, Or.inr hm, h1, h2⟩
          · intro _; simp
      | none =>
          rw [h] at ih
          simp only [List.mem_cons]
          by_cases hk : key = e.entityId
          · rw [if_pos hk]
            cases hr : resolveRegistration dm e with
            | some a =>
                constructor
                · intro _; exact ⟨e, Or.inl rfl, hk.symm, by rw [hr]; simp⟩
                · intro _; simp
            | none =>
                constructor
                · intro hn; exact absurd rfl hn
                · rintro ⟨r, hm, h1, h2⟩
                  rcases hm with hm | hm
                  · subst hm; exact absurd hr h2
                  · exact absurd (ih.mpr ⟨r, hm, h1, h2⟩) (by simp)
          · rw [if_neg hk]
            constructor
            · intro hn; exact absurd rfl hn
            · rintro ⟨r, hm, h1, h2⟩
              rcases hm with hm | hm
              · subst hm; exact absurd h1.symm hk
              · exact absurd (ih.mpr ⟨r, hm, h1, h2⟩) (by simp)

theorem enrichOne_frame (c : AreaEnrichmentCache) (s : HAState) :
    (enrichOne c s).entityId = s.entityId ∧ (enrichOne c s).state = s.state
    ∧ (enrichOne c s).attributes = s.attributes
    ∧ (enrichOne c s).lastChanged = s.lastChanged
    ∧ (enrichOne c s).lastUpdated = s.lastUpdated := by
  unfold enrichOne
  cases h1 : c.entities.find s.entityId with
  | none => simp
  | some areaId =>
      cases h2 : c.areas.find areaId with
      | none => simp [h2]
      | some a => simp [h2]

theorem enrichOne_of_entity_none (c : AreaEnrichmentCache) (s : HAState)
    (h : c.entities.find s.entityId = none) : enrichOne c s = s := by
  unfold enrichOne; rw [h]

theorem enrichOne_of_area_none (c : AreaEnrichmentCache) (s : HAState) (areaId : String)
    (h1 : c.entities.find s.entityId = some areaId) (h2 : c.areas.find areaId = none) :
    enrichOne c s = s := by
  unfold enrichOne; rw [h1]; simp [h2]

theorem enrichOne_of_both (c : AreaEnrichmentCache) (s : HAState) (areaId : String) (a : HAArea)
    (h1 : c.entities.find s.entityId = some areaId) (h2 : c.areas.find areaId = some a) :
    enrichOne c s = { s with area := some a } := by
  unfold enrichOne; rw [h1]; simp [h2]

theorem enrichWithArea_eq_map (c : AreaEnrichmentCache) (states : List HAState) :
    enrichWithArea c states = states.map (enrichOne c) := by
  unfold enrichWithArea
  by_cases h : (c.areas.isEmptyMap && c.entities.isEmptyMap) = true
  · rw [if_pos h]
    have he : c.entities = SMap.empty :=
      (SMap.isEmptyMap_iff c.entities).mp (Bool.and_elim_right h)
    have hmap : ∀ s ∈ states, enrichOne c s = id s := fun s _ =>
      enrichOne_of_entity_none c s (by rw [he]; rfl)
    rw [List.map_congr_left hmap, List.map_id]
  · rw [if_neg h]

theorem registerArea_find_preserved (m : SMap HAArea) (p : Option (String × String))
    (key : String) (a : HAArea) (h : m.find key = some a) :
    (registerArea m p).find key = some a := by
  cases p with
  | none => exact h
  | some kv =>
      obtain ⟨k, nm⟩ := kv
      simp only [registerArea]
      cases hf : m.find k with
      | some b => exact h
      | none =>
          rw [SMap.find_insert]
          by_cases hk : key = k
          · rw [hk] at h; rw [h] at hf; cases hf
          · rw [if_neg hk]; exact h

theorem friendlyCandidate_eq (parts : List String) :
    friendlyCandidate parts =
      match candidateAmended parts with
      | some cand =>
          if 3 < strLen cand ∧ isDeviceName cand = false then
            some (normalizeAreaID cand, cand)
          else none
      | none => none := by
  match parts with
  | [] => rfl
  | [t] => rfl
  | t1 :: t2 :: rest =>
      simp only [friendlyCandidate, possibleAreaOf, candidateAmended]
      have h2 : 2 ≤ (t1 :: t2 :: rest).length := by simp
      rw [if_pos h2]
      by_cases hc : 0 < rest.length ∧ isCommonAreaWord t2 = true
      · have h3 : 3 ≤ (t1 :: t2 :: rest).length
            ∧ isCommonAreaWord ((t1 :: t2 :: rest).getD 1 "") = true := by
          refine ⟨?_, hc.2⟩
          have := hc.1
          simp only [List.length_cons]
          omega
        rw [if_pos h3, if_pos hc]
        rfl
      · have h3 : ¬(3 ≤ (t1 :: t2 :: rest).length
            ∧ isCommonAreaWord ((t1 :: t2 :: rest).getD 1 "") = true) := by
          rintro ⟨ha, hb⟩
          refine hc ⟨?_, hb⟩
          simp only [List.length_cons] at ha
          omega
        rw [if_neg h3, if_neg hc]
        rfl

theorem registerArea_areaAttr (m : SMap HAArea) (s : HAState) :
    registerArea m (areaAttrOf s) = areaAttrRegister m s := by
  unfold areaAttrOf areaAttrRegister jlookupStr
  cases jlookup s.attributes "area" with
  | none => rfl
  | some v =>
      cases v with
      | str a => by_cases ha : a ≠ "" <;> simp [ha, registerArea]
      | num n => rfl
      | boolean b => rfl
      | null => rfl
      | arr xs => rfl
      | obj fs => rfl

theorem friendlyAreaOf_none (s : HAState)
    (hn : jlookupStr s.attributes "friendly_name" = none) :
    friendlyAreaOf s = none := by
  unfold friendlyAreaOf; rw [hn]

theorem friendlyAreaOf_some (s : HAState) (n : String)
    (hn : jlookupStr s.attributes "friendly_name" = some n) :
    friendlyAreaOf s = friendlyCandidate (splitOnSpace n) := by
  unfold friendlyAreaOf; rw [hn]

theorem extractAreasStep_eq_amended (m : SMap HAArea) (s : HAState) :
    extractAreasStep m s = extractAreasStepAmended m s := by
  unfold extractAreasStep extractAreasStepAmended
  by_cases hl : isLightOrSwitch s.entityId = true
  · rw [if_pos hl, if_pos hl, registerArea_areaAttr]
    cases hn : jlookupStr s.attributes "friendly_name" with
    | none => rw [friendlyAreaOf_none s hn]; rfl
    | some n =>
        rw [friendlyAreaOf_some s n hn, friendlyCandidate_eq]
        show registerArea (areaAttrRegister m s)
            (match candidateAmended (splitOnSpace n) with
             | some cand =>
                 if 3 < strLen cand ∧ isDeviceName cand = false then
                   some (normalizeAreaID cand, cand)
                 else none
             | none => none)
          = match candidateAmended (splitOnSpace n) with
            | some cand =>
                if 3 < strLen cand ∧ isDeviceName cand = false then
                  registerArea (areaAttrRegister m s) (some (normalizeAreaID cand, cand))
                else areaAttrRegister m s
            | none => areaAttrRegister m s
        cases hcand : candidateAmended (splitOnSpace n) with
        | none => rfl
        | some cand =>
            by_cases hacc : 3 < strLen cand ∧ isDeviceName cand = false
            · simp [hacc]
            · simp [hacc, registerArea]
  · rw [if_neg hl, if_neg hl]

theorem extractAreasFold_eq (states : List HAState) (m : SMap HAArea) :
    states.foldl extractAreasStep m = states.foldl extractAreasStepAmended m := by
  induction states generalizing m with
  | nil => rfl
  | cons s rest ih =>
      simp only [List.foldl_cons]
      rw [extractAreasStep_eq_amended]
      exact ih _

theorem extractAreasStep_find_preserved (m : SMap HAArea) (s : HAState)
    (key : String) (a : HAArea) (h : m.find key = some a) :
    (extractAreasStep m s).find key = some a := by
  unfold extractAreasStep
  by_cases hl : isLightOrSwitch s.entityId = true
  · rw [if_pos hl]
    exact registerArea_find_preserved _ _ _ _ (registerArea_find_preserved _ _ _ _ h)
  · rw [if_neg hl]; exact h

theorem isEntityBlacklisted_eq_any (regexMatch : String → String → Option Bool)
    (blacklist : List String) (entityId : String) :
    isEntityBlacklisted regexMatch blacklist entityId =
      blacklist.any (fun p => p == entityId || (regexMatch p entityId).getD false) := by
  induction blacklist with
  | nil => rfl
  | cons p rest ih =>
      simp only [isEntityBlacklisted, List.any_cons]
      by_cases h1 : p = entityId
      · simp [h1]
      · rw [if_neg h1]
        by_cases h2 : (regexMatch p entityId).getD false = true
        · simp [h2]
        · simp only [h2, if_false]
          rw [ih]
          simp [h1, h2]

theorem isEntityWhitelisted_eq_any (regexMatch : String → String → Option Bool)
    (whitelist : List String) (entityId : String) :
    isEntityWhitelisted regexMatch whitelist entityId =
      whitelist.any (fun p => (regexMatch p entityId).getD false) := by
  induction whitelist with
  | nil => rfl
  | cons p rest ih =>
      simp only [isEntityWhitelisted, List.any_cons]
      by_cases h2 : (regexMatch p entityId).getD false = true
      · simp [h2]
      · simp only [h2, if_false]
        rw [ih]
        simp [h2]

theorem filterEntities_eq_filter (regexMatch : String → String → Option Bool)
    (blacklist whitelist : List String) (states : List HAState) :
    filterEntities regexMatch blacklist whitelist states =
      states.filter (fun e =>
        !(isEntityBlacklisted regexMatch blacklist e.entityId)
        && (whitelist.length == 0 || isEntityWhitelisted regexMatch whitelist e.entityId)) := by
  induction states with
  | nil => rfl
  | cons e rest ih =>
      simp only [filterEntities, List.filter_cons]
      by_cases hb : isEntityBlacklisted regexMatch blacklist e.entityId = true
      · simp [hb, ih]
      · by_cases hw : whitelist.length = 0
        · simp [hb, hw, ih]
        · by_cases hwl : isEntityWhitelisted regexMatch whitelist e.entityId = true
          · simp [hb, hw, hwl, ih]
          · simp [hb, hw, hwl, ih]

theorem processCtrlResult_index (i : Nat) (entityId action : String)
    (r : Except String Unit) : (processCtrlResult i entityId action r).1.index = i := by
  cases r <;> rfl

theorem processWithEntity_index (ctrl : String → String → Except String Unit)
    (i : Nat) (fields : List (String × JVal)) (entityId : String) :
    (processWithEntity ctrl i fields entityId).1.index = i := by
  unfold processWithEntity
  cases jlookupStr fields "action" with
  | none => rfl
  | some action => exact processCtrlResult_index i entityId action _

theorem processObjItem_index (ctrl : String → String → Except String Unit)
    (i : Nat) (fields : List (String × JVal)) :
    (processObjItem ctrl i fields).1.index = i := by
  unfold processObjItem
  cases jlookupStr fields "entity_id" with
  | none => rfl
  | some entityId => exact processWithEntity_index ctrl i fields entityId

theorem processBatchItem_index (ctrl : String → String → Except String Unit)
    (i : Nat) (item : JVal) : (processBatchItem ctrl i item).1.index = i := by
  cases item <;> try rfl
  case obj fields => exact processObjItem_index ctrl i fields

theorem processCtrlResult_errCount (i : Nat) (entityId action : String)
    (r : Except String Unit) :
    ((processCtrlResult i entityId action r).2).toList.length =
      (if (processCtrlResult i entityId action r).1.success = true then 0 else 1) := by
  cases r <;> rfl

theorem processWithEntity_errCount (ctrl : String → String → Except String Unit)
    (i : Nat) (fields : List (String × JVal)) (entityId : String) :
    ((processWithEntity ctrl i fields entityId).2).toList.length =
      (if (processWithEntity ctrl i fields entityId).1.success = true then 0 else 1) := by
  unfold processWithEntity
  cases jlookupStr fields "action" with
  | none => rfl
  | some action => exact processCtrlResult_errCount i entityId action _

theorem processObjItem_errCount (ctrl : String → String → Except String Unit)
    (i : Nat) (fields : List (String × JVal)) :
    ((processObjItem ctrl i fields).2).toList.length =
      (if (processObjItem ctrl i fields).1.success = true then 0 else 1) := by
  unfold processObjItem
  cases jlookupStr fields "entity_id" with
  | none => rfl
  | some entityId => exact processWithEntity_errCount ctrl i fields entityId

theorem processBatchItem_errCount (ctrl : String → String → Except String Unit)
    (i : Nat) (item : JVal) :
    ((processBatchItem ctrl i item).2).toList.length =
      (if (processBatchItem ctrl i item).1.success = true then 0 else 1) := by
  cases item <;> try rfl
  case obj fields => exact processObjItem_errCount ctrl i fields

theorem processBatch_length (ctrl : String → String → Except String Unit)
    (items : List JVal) (i : Nat) :
    (processBatch ctrl items i).1.length = items.length := by
  induction items generalizing i with
  | nil => rfl
  | cons item rest ih =>
      simp only [processBatch, List.length_cons]
      rw [ih]

theorem processBatch_indices (ctrl : String → String → Except String Unit)
    (items : List JVal) (i : Nat) :
    (processBatch ctrl items i).1.map (fun e => e.index) = List.range' i items.length := by
  induction items generalizing i with
  | nil => rfl
  | cons item rest ih =>
      simp only [processBatch, List.map_cons, List.length_cons, List.range'_succ]
      rw [processBatchItem_index, ih]

theorem processBatch_errCount (ctrl : String → String → Except String Unit)
    (items : List JVal) (i : Nat) :
    (processBatch ctrl items i).2.length =
      ((processBatch ctrl items i).1.filter (fun e => e.success = false)).length := by
  induction items generalizing i with
  | nil => rfl
  | cons item rest ih =>
      simp only [processBatch, List.length_append, List.filter_cons]
      rw [ih (i + 1), processBatchItem_errCount]
      by_cases hs : (processBatchItem ctrl i item).1.success = true
      · simp [hs]
      · simp [hs]
        omega

/-
Claim theorems.
-/

/-- C1: for every cache refresh, the device map holds exactly the fetched
devices with a non-empty area id (the latest fetched entry winning on a
repeated id); the entity map resolves each fetched registration — direct
area id first, else the just-built device map via the device id — omitting
registrations resolving to neither; and enrichment attaches an Area to a
state if and only if its entity id is in the entity map and the mapped area
id is in the areas map. -/
theorem cacheJoin_resolution_correct (devs : List HADevice) (regs : List HAEntity)
    (devKey entKey : String) (c : AreaEnrichmentCache) (s : HAState)
    (states : List HAState) :
    ((buildDeviceMap devs).find devKey = lastDeviceArea devs devKey)
    ∧ ((buildDeviceMap devs).find devKey ≠ none ↔
        ∃ d ∈ devs, d.id = devKey ∧ d.areaId ≠ "")
    ∧ ((buildEntityMap regs (buildDeviceMap devs)).find entKey =
        lastEntityArea (buildDeviceMap devs) regs entKey)
    ∧ ((buildEntityMap regs (buildDeviceMap devs)).find entKey ≠ none ↔
        ∃ r ∈ regs, r.entityId = entKey
          ∧ resolveRegistration (buildDeviceMap devs) r ≠ none)
    ∧ (∀ areaId a, c.entities.find s.entityId = some areaId →
        c.areas.find areaId = some a → enrichOne c s = { s with area := some a })
    ∧ (c.entities.find s.entityId = none → enrichOne c s = s)
    ∧ (∀ areaId, c.entities.find s.entityId = some areaId →
        c.areas.find areaId = none → enrichOne c s = s)
    ∧ (enrichWithArea c states = states.map (enrichOne c)) := by
  refine ⟨buildDeviceMap_find devs devKey, ?_,
    buildEntityMap_find regs (buildDeviceMap devs) entKey, ?_,
    fun areaId a h1 h2 => enrichOne_of_both c s areaId a h1 h2,
    fun h => enrichOne_of_entity_none c s h,
    fun areaId h1 h2 => enrichOne_of_area_none c s areaId h1 h2,
    enrichWithArea_eq_map c states⟩
  · rw [buildDeviceMap_find]
    exact lastDeviceArea_ne_none_iff devs devKey
  · rw [buildEntityMap_find]
    exact lastEntityArea_ne_none_iff (buildDeviceMap devs) regs entKey

/-- Witness for C1 at the kitchen fixtures: dev1 resolves to kitchen, the
registration for light.a resolves through dev1, and enrichment attaches the
kitchen area to light.a. -/
theorem cacheJoin_resolution_correct_witness :
    (buildDeviceMap devListFx).find "dev1" = some "kitchen"
    ∧ (buildEntityMap regListFx (buildDeviceMap devListFx)).find "light.a" = some "kitchen"
    ∧ enrichOne cacheFx stateFx = { stateFx with area := some kitchenArea }
    ∧ enrichWithArea cacheFx [stateFx] = [{ stateFx with area := some kitchenArea }] := by
  have h := cacheJoin_resolution_correct devListFx regListFx "dev1" "light.a"
    cacheFx stateFx [stateFx]
  obtain ⟨h1, _, h3, _, h5, _, _, h8⟩ := h
  refine ⟨?_, ?_, h5 "kitchen" kitchenArea rfl rfl, ?_⟩
  · rw [h1]; decide
  · rw [h3]; decide
  · rw [h8, List.map_cons, List.map_nil, h5 "kitchen" kitchenArea rfl rfl]

/-- C2: a second refresh call within the 5-minute staleness window after
the first call completed performs no network I/O and leaves the three maps
and the timestamp unchanged, whatever the outcomes of the first call's
fetches, because the first call updates the timestamp to its completion
time even on partial failure. -/
theorem refresh_rate_limited (c : AreaEnrichmentCache) (fr1 fr2 : FetchResults)
    (t1c t1d t2c t2d : Nat)
    (h1 : stalenessThreshold ≤ t1c - c.lastUpdate)
    (h2 : t2c - t1d < stalenessThreshold) :
    (updateAreaCache t1c t1d fr1 c).2 = true
    ∧ (updateAreaCache t1c t1d fr1 c).1.lastUpdate = t1d
    ∧ updateAreaCache t2c t2d fr2 (updateAreaCache t1c t1d fr1 c).1 =
        ((updateAreaCache t1c t1d fr1 c).1, false) := by
  have hnot : ¬(t1c - c.lastUpdate < stalenessThreshold) := not_lt.mpr h1
  simp only [updateAreaCache, if_neg hnot]
  refine ⟨trivial, trivial, ?_⟩
  rw [if_pos h2]

/-- Witness for C2: after a refresh (with a failed areas fetch) completing
at the staleness threshold, a call one tick later is a no-op. -/
theorem refresh_rate_limited_witness :
    updateAreaCache stalenessThreshold (stalenessThreshold + 1) frPartialFx
        (updateAreaCache stalenessThreshold stalenessThreshold frPartialFx emptyCacheFx).1 =
      ((updateAreaCache stalenessThreshold stalenessThreshold frPartialFx emptyCacheFx).1,
        false) :=
  (refresh_rate_limited emptyCacheFx frPartialFx frPartialFx
    stalenessThreshold stalenessThreshold stalenessThreshold (stalenessThreshold + 1)
    (by decide) (by decide)).2.2

/-- C3: with the cache stale, a refresh substitutes the empty list for each
failed registry fetch only, still uses the other fetches' results, and
replaces all three maps wholesale with values independent of the previous
cache contents, in one step. -/
theorem refresh_fetch_failure_isolated (c : AreaEnrichmentCache) (fr : FetchResults)
    (tc td : Nat) (h : stalenessThreshold ≤ tc - c.lastUpdate) :
    updateAreaCache tc td fr c =
      ({ areas := buildAreasMap (fr.areas.getD [])
       , devices := buildDeviceMap (fr.devices.getD [])
       , entities := buildEntityMap (fr.entities.getD []) (buildDeviceMap (fr.devices.getD []))
       , lastUpdate := td }, true) := by
  have hnot : ¬(tc - c.lastUpdate < stalenessThreshold) := not_lt.mpr h
  simp only [updateAreaCache, if_neg hnot]

/-- Witness for C3: a refresh whose areas fetch failed still builds the
device and entity maps from the successful fetches and empties only the
areas map. -/
theorem refresh_fetch_failure_isolated_witness :
    updateAreaCache stalenessThreshold stalenessThreshold frPartialFx emptyCacheFx =
      ({ areas := buildAreasMap []
       , devices := buildDeviceMap devListFx
       , entities := buildEntityMap regListFx (buildDeviceMap devListFx)
       , lastUpdate := stalenessThreshold }, true) :=
  refresh_fetch_failure_isolated emptyCacheFx frPartialFx
    stalenessThreshold stalenessThreshold (by decide)

/-- C4 counterexample: with the socket tier failed, a decode failure of a
200 REST response makes getEntityRegistry surface an error instead of
falling through to the heuristic extraction, although the heuristic would
have succeeded here (with the empty list). -/
theorem entityRegistry_decode_failure_errors :
    getEntityRegistry (Except.error ()) (RestAttempt.resp 200 none)
        (RestAttempt.resp 200 (some [])) = Except.error ()
    ∧ extractEntityAreaFromStates (RestAttempt.resp 200 (some [])) = Except.ok []
    ∧ getEntityRegistry (Except.error ()) (RestAttempt.resp 200 none)
          (RestAttempt.resp 200 (some []))
        ≠ extractEntityAreaFromStates (RestAttempt.resp 200 (some [])) := by
  refine ⟨rfl, rfl, fun hcontra => ?_⟩
  have h2 : (Except.error () : Except Unit (List HAEntity)) = Except.ok [] := hcontra
  cases h2

/-- C4 amended: with the socket tier failed, the single REST candidate is
tried; a non-200 response falls through to the heuristic extraction from
bulk states, while a transport error or a decode failure of a 200 response
surfaces an error. -/
theorem entityRegistry_rest_fallthrough (statesResp : RestAttempt (List HAState))
    (status : Nat) (body : Option (List HAEntity)) :
    (status ≠ 200 →
      getEntityRegistry (Except.error ()) (RestAttempt.resp status body) statesResp =
        extractEntityAreaFromStates statesResp)
    ∧ getEntityRegistry (Except.error ()) (RestAttempt.resp 200 none) statesResp =
        Except.error ()
    ∧ getEntityRegistry (Except.error ()) RestAttempt.transportError statesResp =
        Except.error () := by
  refine ⟨fun h => ?_, ?_, rfl⟩
  · simp [getEntityRegistry, h]
  · simp [getEntityRegistry]

/-- Witness for C4 amended: a 404 REST response falls through to the
heuristic extraction. -/
theorem entityRegistry_rest_fallthrough_witness :
    getEntityRegistry (Except.error ()) (RestAttempt.resp 404 none)
        (RestAttempt.resp 200 (some [livingRoomLampState])) =
      extractEntityAreaFromStates (RestAttempt.resp 200 (some [livingRoomLampState])) :=
  (entityRegistry_rest_fallthrough
    (RestAttempt.resp 200 (some [livingRoomLampState])) 404 none).1 (by decide)

/-- C5: an empty areas socket result falls through to the REST tier while a
non-empty one is returned; empty socket results for devices and entity
registrations are accepted as valid; and a non-200 device-registry REST
response yields the explicit empty device list rather than an error. -/
theorem socket_success_asymmetry (rest1 rest2 : RestAttempt (List HAArea))
    (statesA : RestAttempt (List HAState)) (l : List HAArea) (hl : l ≠ [])
    (restD : RestAttempt (List HADevice)) (status : Nat)
    (body : Option (List HADevice)) (hs : status ≠ 200)
    (restE : RestAttempt (List HAEntity)) (statesE : RestAttempt (List HAState)) :
    getAreas (Except.ok []) rest1 rest2 statesA =
        getAreas (Except.error ()) rest1 rest2 statesA
    ∧ getAreas (Except.ok l) rest1 rest2 statesA = Except.ok l
    ∧ getDevices (Except.ok []) restD = Except.ok []
    ∧ getEntityRegistry (Except.ok []) restE statesE = Except.ok []
    ∧ getDevices (Except.error ()) (RestAttempt.resp status body) = Except.ok [] := by
  refine ⟨rfl, ?_, rfl, rfl, ?_⟩
  · simp only [getAreas]
    rw [if_pos (List.length_pos.mpr hl)]
  · show (if status ≠ 200 then Except.ok []
          else match body with
               | some devices => Except.ok devices
               | none => Except.error ()) = Except.ok []
    rw [if_pos hs]

/-- Witness for C5: a non-empty areas socket result is returned, and a 404
device-registry response yields the empty device list. -/
theorem socket_success_asymmetry_witness :
    getAreas (Except.ok [kitchenArea]) RestAttempt.transportError
        RestAttempt.transportError RestAttempt.transportError = Except.ok [kitchenArea]
    ∧ getDevices (Except.error ()) (RestAttempt.resp 404 none) = Except.ok [] := by
  have h := socket_success_asymmetry RestAttempt.transportError RestAttempt.transportError
    RestAttempt.transportError [kitchenArea] (by decide)
    RestAttempt.transportError 404 none (by decide)
    RestAttempt.transportError RestAttempt.transportError
  exact ⟨h.2.1, h.2.2.2.2⟩

/-- C6 counterexample: heuristic extraction runs the display-name branch
even when an explicit area attribute is present (so dualAttrState yields
the kitchen area that the claim's otherwise-reading omits), and it
requires at least two display-name tokens (so singleTokenState yields
nothing although the claim's first-token-alone reading registers
kitchenette). -/
theorem heuristic_extraction_claim_counterexample :
    ((extractAreasMap [dualAttrState]).find "kitchen" =
        some { areaId := "kitchen", name := "Kitchen", picture := "", aliases := [] }
     ∧ (extractAreasMapClaim6 [dualAttrState]).find "kitchen" = none)
    ∧ ((extractAreasMap [singleTokenState]).isEmptyMap = true
     ∧ (extractAreasMapClaim6 [singleTokenState]).find "kitchenette" ≠ none) := by
  refine ⟨⟨?_, ?_⟩, ?_, ?_⟩ <;> decide

/-- C6 amended: for every light/switch state, a non-empty explicit string
area attribute is normalized and registered, and additionally — not
alternatively — when the display name splits on spaces into at least two
tokens, the candidate (first two tokens joined when at least three tokens
exist and the second is an area noun, else the first token alone) is
registered when longer than 3 characters and free of device-name words;
the first occurrence of an area id always wins; display name
"Living Room Lamp 1" yields living_room and "Sonoff Switch 1" yields
nothing. -/
theorem heuristic_extraction_amended (states : List HAState) (m : SMap HAArea)
    (s : HAState) (key : String) (a : HAArea) :
    extractAreasMap states = extractAreasMapAmended states
    ∧ (m.find key = some a → (extractAreasStep m s).find key = some a)
    ∧ (extractAreasMap [livingRoomLampState]).find "living_room" =
        some { areaId := "living_room", name := "Living Room", picture := "", aliases := [] }
    ∧ (extractAreasMap [sonoffSwitchState]).isEmptyMap = true := by
  refine ⟨extractAreasFold_eq states SMap.empty,
    fun h => extractAreasStep_find_preserved m s key a h, by decide, by decide⟩

/-- Witness for C6 amended: an already-registered kitchen area survives the
step on a state whose attributes would register kitchen again. -/
theorem heuristic_extraction_amended_witness :
    (extractAreasStep [("kitchen", kitchenArea)] dualAttrState).find "kitchen" =
      some kitchenArea :=
  (heuristic_extraction_amended [] [("kitchen", kitchenArea)] dualAttrState
    "kitchen" kitchenArea).2.1 rfl

/-- C7: filtering excludes exactly the blacklist matches (each pattern
tried as an exact string, then as a regular expression, a malformed pattern
matching nothing) and, with a non-empty whitelist, also the entities
matching no whitelist pattern; with an empty whitelist all non-blacklisted
entities pass; output preserves input order (it is a filter). -/
theorem filter_semantics (regexMatch : String → String → Option Bool)
    (blacklist whitelist : List String) (states : List HAState)
    (p entityId : String) :
    filterEntities regexMatch blacklist whitelist states =
      states.filter (fun e =>
        !(isEntityBlacklisted regexMatch blacklist e.entityId)
        && (whitelist.length == 0 || isEntityWhitelisted regexMatch whitelist e.entityId))
    ∧ isEntityBlacklisted regexMatch blacklist entityId =
        blacklist.any (fun q => q == entityId || (regexMatch q entityId).getD false)
    ∧ isEntityWhitelisted regexMatch whitelist entityId =
        whitelist.any (fun q => (regexMatch q entityId).getD false)
    ∧ (regexMatch p entityId = none →
        isEntityBlacklisted regexMatch [p] entityId = (p == entityId))
    ∧ (regexMatch p entityId = none →
        isEntityWhitelisted regexMatch [p] entityId = false) := by
  refine ⟨filterEntities_eq_filter regexMatch blacklist whitelist states,
    isEntityBlacklisted_eq_any regexMatch blacklist entityId,
    isEntityWhitelisted_eq_any regexMatch whitelist entityId,
    fun h => ?_, fun h => ?_⟩
  · by_cases hp : p = entityId
    · simp [isEntityBlacklisted, hp]
    · simp [isEntityBlacklisted, hp, h]
  · simp [isEntityWhitelisted, h]

/-- Witness for C7: with a malformed regex oracle, an exact blacklist entry
drops the Sonoff switch and keeps the lamp, preserving order. -/
theorem filter_semantics_witness :
    filterEntities (fun _ _ => none) ["switch.s1"] []
        [livingRoomLampState, sonoffSwitchState] = [livingRoomLampState]
    ∧ isEntityBlacklisted (fun _ _ => none) ["switch.s1"] "light.lr" =
        ("switch.s1" == "light.lr") := by
  have h := filter_semantics (fun _ _ => none) ["switch.s1"] []
    [livingRoomLampState, sonoffSwitchState] "switch.s1" "light.lr"
  refine ⟨?_, h.2.2.2.1 rfl⟩
  rw [h.1]
  rfl

/-- C8: controlEntity returns a user error without any HTTP request when
the entity prefix is neither light. nor switch. or the action is none of
on/turn_on/off/turn_off; otherwise it issues exactly one POST to the
domain/service endpoint carrying the entity id and succeeds if and only if
the response status is 200. -/
theorem control_entity_semantics (httpPost : String → Option Nat)
    (entityId action : String) :
    (strStartsWith entityId "light." = false → strStartsWith entityId "switch." = false →
        controlEntity httpPost entityId action = (CtrlOutcome.userErr, []))
    ∧ (action ≠ "on" → action ≠ "turn_on" → action ≠ "off" → action ≠ "turn_off" →
        controlEntity httpPost entityId action = (CtrlOutcome.userErr, []))
    ∧ (∀ domain service, domainOf entityId = some domain →
        serviceOf action = some service →
        (controlEntity httpPost entityId action).2 =
          [("/api/services/" ++ domain ++ "/" ++ service, entityId)]
        ∧ ((controlEntity httpPost entityId action).1 = CtrlOutcome.ok ↔
            httpPost ("/api/services/" ++ domain ++ "/" ++ service) = some 200)) := by
  refine ⟨fun h1 h2 => ?_, fun h1 h2 h3 h4 => ?_, fun domain service hd hs => ?_⟩
  · simp [controlEntity, domainOf, h1, h2]
  · cases hd : domainOf entityId with
    | none => simp [controlEntity, hd]
    | some d => simp [controlEntity, hd, serviceOf, h1, h2, h3, h4]
  · simp only [controlEntity, hd, hs]
    cases hp : httpPost ("/api/services/" ++ domain ++ "/" ++ service) with
    | none => simp [hp]
    | some st =>
        by_cases h200 : st = 200
        · simp [hp, h200]
        · simp [hp, h200]

/-- Witness for C8: toggle on a light and any action on a thermostat are
user errors without requests; a valid call against a 200 hub succeeds. -/
theorem control_entity_semantics_witness :
    controlEntity (fun _ => some 200) "light.kitchen" "toggle" = (CtrlOutcome.userErr, [])
    ∧ controlEntity (fun _ => some 200) "thermostat.hall" "on" = (CtrlOutcome.userErr, [])
    ∧ (controlEntity (fun _ => some 200) "light.kitchen" "on").1 = CtrlOutcome.ok := by
  have h1 := control_entity_semantics (fun _ => some 200) "light.kitchen" "toggle"
  have h2 := control_entity_semantics (fun _ => some 200) "thermostat.hall" "on"
  have h3 := control_entity_semantics (fun _ => some 200) "light.kitchen" "on"
  exact ⟨h1.2.1 (by decide) (by decide) (by decide) (by decide),
    h2.1 (by decide) (by decide),
    ((h3.2.2 "light" "turn_on" rfl rfl).2).mpr rfl⟩

/-- C9: every batch item yields exactly one results entry, in input order
with sequential indices, so no item's failure aborts the remaining items;
and the aggregate error list holds exactly one message per failed entry. -/
theorem batch_control_isolation (ctrl : String → String → Except String Unit)
    (items : List JVal) :
    (controlMultipleEntities ctrl items).1.length = items.length
    ∧ (controlMultipleEntities ctrl items).1.map (fun e => e.index) =
        List.range items.length
    ∧ (controlMultipleEntities ctrl items).2.length =
        ((controlMultipleEntities ctrl items).1.filter (fun e => e.success = false)).length := by
  refine ⟨processBatch_length ctrl items 0, ?_, processBatch_errCount ctrl items 0⟩
  rw [List.range_eq_range']
  exact processBatch_indices ctrl items 0

/-- C10: enrichment is a per-element map that can change only the Area
field, never the identifier, state, attributes or timestamps; an entity
missing from the entity map, or whose mapped area id is missing from the
areas map, is returned unchanged; with both cache maps empty the input is
returned as-is. -/
theorem enrich_frame_property (c : AreaEnrichmentCache) (states : List HAState)
    (s : HAState) :
    enrichWithArea c states = states.map (enrichOne c)
    ∧ ((enrichOne c s).entityId = s.entityId ∧ (enrichOne c s).state = s.state
       ∧ (enrichOne c s).attributes = s.attributes
       ∧ (enrichOne c s).lastChanged = s.lastChanged
       ∧ (enrichOne c s).lastUpdated = s.lastUpdated)
    ∧ (c.entities.find s.entityId = none → enrichOne c s = s)
    ∧ (∀ areaId, c.entities.find s.entityId = some areaId →
        c.areas.find areaId = none → enrichOne c s = s)
    ∧ (c.areas = SMap.empty → c.entities = SMap.empty →
        enrichWithArea c states = states) := by
  refine ⟨enrichWithArea_eq_map c states, enrichOne_frame c s,
    fun h => enrichOne_of_entity_none c s h,
    fun areaId h1 h2 => enrichOne_of_area_none c s areaId h1 h2,
    fun h1 h2 => ?_⟩
  unfold enrichWithArea
  rw [h1, h2]
  rfl

/-- Witness for C10: an empty cache returns the input list as-is, and a
state absent from the entity map is unchanged. -/
theorem enrich_frame_property_witness :
    enrichWithArea emptyCacheFx [stateFx] = [stateFx]
    ∧ enrichOne cacheFx sonoffSwitchState = sonoffSwitchState := by
  have h := enrich_frame_property emptyCacheFx [stateFx] stateFx
  have h2 := enrich_frame_property cacheFx [] sonoffSwitchState
  exact ⟨h.2.2.2.2 rfl rfl, h2.2.2.1 rfl⟩

end HAMCP
